import Mathlib

/-!
Verification of the Firestore bundle decoding subsystem
(`Firestore/core/src/bundle/bundle_serializer.{h,cc}`).

The C++ source is shallowly embedded: each decoding function of the source
becomes a Lean function of the same name, JSON trees become the `Json`
inductive (an abstraction of the parsed `nlohmann::json` storage), and the
mutable `JsonReader` error context becomes explicit state passing of a
`ReaderState` value.  External collaborators (the absl time/string library,
the wire-protocol serializer) are either fields of an `Externals` record or
small definitions modelled from the specification, each marked as such.
-/

namespace FsBundle

/--
A parsed JSON tree, abstracting `nlohmann::json` storage.

* `num i` is a value stored as a JSON integer (nlohmann `number_integer` /
  `number_unsigned` storage, so `is_number_integer()` holds); the payload is
  the mathematical integer stored. `get<intN_t>` on such storage is a
  two's-complement narrowing cast, modelled by `toSigned` below.
* `numF q` is a value stored as a floating-point JSON number
  (`is_number_integer()` is false, `is_number()` is true); binary64 contents
  are abstracted to an exact rational.
* `obj` keeps the object's entries as stored (nlohmann keeps keys unique);
  `contains`/`at` are key lookups.
-/
inductive Json where
  | null
  | bool (b : Bool)
  | num (i : Int)
  | numF (q : Rat)
  | str (s : String)
  | arr (elems : List Json)
  | obj (entries : List (String × Json))

/-- Key lookup in an object's entry list (nlohmann `at`/`contains` on unique keys). -/
def lookupEntries : List (String × Json) → String → Option Json
  | [], _ => none
  | (k', v) :: rest, k => if k' = k then some v else lookupEntries rest k

/-- `j.contains name`-style lookup: `none` on non-objects (nlohmann `contains`
is false there). -/
def Json.lookup : Json → String → Option Json
  | Json.obj kvs, k => lookupEntries kvs k
  | _, _ => none

/-- nlohmann `at(name)` as used by the source: always guarded by a preceding
`contains` check, so the `none` case is never reached on source paths. -/
def Json.atKey (j : Json) (k : String) : Json := (j.lookup k).getD Json.null

def Json.isObject : Json → Bool
  | Json.obj _ => true
  | _ => false

def Json.isString : Json → Bool
  | Json.str _ => true
  | _ => false

theorem sizeOf_lookupEntries {kvs : List (String × Json)} {k : String} {v : Json}
    (h : lookupEntries kvs k = some v) : sizeOf v < sizeOf kvs := by
  induction kvs with
  | nil => simp [lookupEntries] at h
  | cons hd tl ih =>
    obtain ⟨k', v'⟩ := hd
    simp only [lookupEntries] at h
    by_cases hk : k' = k
    · simp [hk] at h
      subst h
      simp
      omega
    · simp [hk] at h
      have := ih h
      simp
      omega

theorem Json.sizeOf_lookup {j : Json} {k : String} {v : Json}
    (h : j.lookup k = some v) : sizeOf v < sizeOf j := by
  cases j <;> simp [Json.lookup] at h
  case obj kvs =>
    have := sizeOf_lookupEntries h
    simp
    omega

/--
Modelled from the spec: the `util::ReadContext` base class of `JsonReader`
(its code is outside the shown files).  It "holds an optional terminal status
(kind + message)"; "once set, the status is never overwritten by a later
failure (first failure wins) and never cleared".  We keep the first failure's
message; `none` is the ok state.
-/
def ReaderState : Type := Option String

instance : DecidableEq ReaderState := by unfold ReaderState; infer_instance

namespace JsonReader

/-- Modelled from the spec: `fail(message)` records a failure only if no prior
failure is recorded. -/
def Fail (r : ReaderState) (msg : String) : ReaderState :=
  match r with
  | some m => some m
  | none => some msg

/-- Modelled from the spec: `set_status` with an error status records it only
if no prior failure is recorded (first failure wins). -/
def set_status (r : ReaderState) (msg : String) : ReaderState :=
  Fail r msg

/-- `ok()`: whether no failure has been recorded. -/
def ok (r : ReaderState) : Bool :=
  match r with
  | some _ => false
  | none => true

end JsonReader

/-- Two's-complement narrowing of an integer to a `w`-bit signed value:
models `static_cast`/nlohmann `get<intN_t>` from wider integer storage. -/
def toSigned (w : Nat) (i : Int) : Int :=
  (i + 2 ^ (w - 1)) % 2 ^ w - 2 ^ (w - 1)

/-- Decimal digit value of a character, if it is one. -/
def digitVal (c : Char) : Option Nat :=
  if '0' ≤ c ∧ c ≤ '9' then some (c.toNat - 48) else none

/-- Left-to-right accumulation of decimal digits; `none` on a non-digit. -/
def parseNatCore : List Char → Nat → Option Nat
  | [], acc => some acc
  | c :: cs, acc =>
    match digitVal c with
    | some d => parseNatCore cs (acc * 10 + d)
    | none => none

/-- A nonempty all-digit run parsed as a natural number. -/
def parseNatDigits : List Char → Option Nat
  | [] => none
  | c :: cs => parseNatCore (c :: cs) 0

/--
Modelled from the spec: `absl::SimpleAtoi` accepts a "base-10 numeric string"
("parsed with strict numeric-string parsing"): an optional sign followed by
decimal digits denoting the whole string's value.  The representable-range
check of the concrete instantiation is applied by the caller (`RequireInt`).
-/
def SimpleAtoi (s : String) : Option Int :=
  match s.data with
  | '-' :: cs => (parseNatDigits cs).map (fun n => -(n : Int))
  | '+' :: cs => (parseNatDigits cs).map (fun n => (n : Int))
  | cs => (parseNatDigits cs).map (fun n => (n : Int))

/-- A nonempty digit run's value together with the remaining characters. -/
def takeDigitsVal : List Char → Nat → Nat → (Nat × Nat × List Char)
  | [], acc, cnt => (acc, cnt, [])
  | c :: cs, acc, cnt =>
    match digitVal c with
    | some d => takeDigitsVal cs (acc * 10 + d) (cnt + 1)
    | none => (acc, cnt, c :: cs)

/--
Modelled from the spec: `absl::SimpleAtod` accepts "a decimal numeric string"
(optional sign, digits with an optional fraction part, optional exponent);
binary64 rounding is abstracted to the exact rational denoted.
-/
def SimpleAtod (s : String) : Option Rat :=
  let (neg, cs) :=
    match s.data with
    | '-' :: cs => (true, cs)
    | '+' :: cs => (false, cs)
    | cs => (false, cs)
  let (ip, icnt, cs1) := takeDigitsVal cs 0 0
  let (fp, fcnt, cs2) :=
    match cs1 with
    | '.' :: cs' => takeDigitsVal cs' 0 0
    | _ => (0, 0, cs1)
  if icnt + fcnt = 0 then none
  else
    let mag : Rat := (ip : Rat) + (fp : Rat) / ((10 : Rat) ^ fcnt)
    let base : Rat := if neg then -mag else mag
    match cs2 with
    | [] => some base
    | 'e' :: cs' | 'E' :: cs' =>
      let (eneg, cs3) :=
        match cs' with
        | '-' :: cs'' => (true, cs'')
        | '+' :: cs'' => (false, cs'')
        | cs'' => (false, cs'')
      match cs3 with
      | [] => none
      | e1 :: erest =>
        match parseNatCore (e1 :: erest) 0 with
        | some e =>
          some (if eneg then base / (10 : Rat) ^ e else base * (10 : Rat) ^ e)
        | none => none
    | _ => none

namespace JsonReader

/-- `RequireString`: the named child must exist and be a string " missing or is
not a string" failure otherwise, empty-string placeholder returned. -/
def RequireString (r : ReaderState) (name : String) (j : Json) :
    ReaderState × String :=
  match j.lookup name with
  | some (Json.str s) => (r, s)
  | _ => (Fail r ("'" ++ name ++ "' is missing or is not a string"), "")

/-- `RequireArray`: the named child must exist and be an array; the failure
message is the source's (it reuses the string wording). -/
def RequireArray (r : ReaderState) (name : String) (j : Json) :
    ReaderState × List Json :=
  match j.lookup name with
  | some (Json.arr xs) => (r, xs)
  | _ => (Fail r ("'" ++ name ++ "' is missing or is not a string"), [])

/-- `OptionalBool` is `static`: it cannot touch the error context.  True only
when the key is present and bound to the JSON boolean `true`. -/
def OptionalBool (name : String) (j : Json) : Bool :=
  match j.lookup name with
  | some (Json.bool b) => b
  | _ => false

/-- `Require`: the named child, or the parent object itself (with a failure)
when the key is missing. -/
def Require (r : ReaderState) (name : String) (j : Json) : ReaderState × Json :=
  match j.lookup name with
  | some c => (r, c)
  | none => (Fail r ("Missing child '" ++ name ++ "'"), j)

/-- `RequireDouble`: a JSON number, or a numeric string through `SimpleAtod`;
placeholder 0 on failure.  The missing-key message is the source's. -/
def RequireDouble (r : ReaderState) (name : String) (j : Json) :
    ReaderState × Rat :=
  match j.lookup name with
  | some (Json.num i) => (r, (i : Rat))
  | some (Json.numF q) => (r, q)
  | some (Json.str s) =>
    match SimpleAtod s with
    | some d => (r, d)
    | none => (Fail r ("Failed to parse into double: " ++ s), 0)
  | _ => (Fail r ("'" ++ name ++ "' is missing or is not a double"), 0)

/-- `RequireInt<int_type>` for a `w`-bit signed `int_type`: an integer JSON
number is narrowed by `get<int_type>` (two's complement); a string goes
through `SimpleAtoi<int_type>`, which rejects values outside the `w`-bit
signed range.  The missing-key message says "double" in the source too. -/
def RequireInt (w : Nat) (r : ReaderState) (name : String) (j : Json) :
    ReaderState × Int :=
  match j.lookup name with
  | some (Json.num i) => (r, toSigned w i)
  | some (Json.str s) =>
    match SimpleAtoi s with
    | some v =>
      if -(2 ^ (w - 1)) ≤ v ∧ v < 2 ^ (w - 1) then (r, v)
      else (Fail r ("Failed to parse into integer: " ++ s), 0)
    | none => (Fail r ("Failed to parse into integer: " ++ s), 0)
  | _ => (Fail r ("'" ++ name ++ "' is missing or is not a double"), 0)

end JsonReader

/--
`model::FieldValue`, the tagged union of Firestore field values.  `nan` is
`FieldValue::Nan()` (the binary64 NaN double, abstracted as its own variant
since other doubles are abstracted to exact rationals); `bytes` carries the
decoded byte sequence; `reference` carries a document path; `map` carries the
`immutable::SortedMap` contents as a key-sorted entry list. -/
inductive FieldValue where
  | null
  | boolean (b : Bool)
  | integer (i : Int)
  | double (d : Rat)
  | nan
  | timestamp (seconds nanos : Int)
  | string (s : String)
  | bytes (bs : List Nat)
  | reference (path : List String)
  | geoPoint (latitude longitude : Rat)
  | array (elems : List FieldValue)
  | map (fields : List (String × FieldValue))

/-- `immutable::SortedMap::insert`: keeps the entry list sorted by key and
replaces the value on an existing key (last write wins). -/
def SortedMap.insert : List (String × FieldValue) → String → FieldValue →
    List (String × FieldValue)
  | [], k, v => [(k, v)]
  | (k', v') :: rest, k, v =>
    if k < k' then (k, v) :: (k', v') :: rest
    else if k = k' then (k, v) :: rest
    else (k', v') :: SortedMap.insert rest k v

/--
The external collaborators the decoder consumes, as the spec's §6 lists them:
the absl time parser behind `DecodeTimestamp`'s RFC-3339 branch (returning a
unix `(seconds, nanos)` pair or a parse-error message), absl
`Base64Unescape`, and the wire-protocol serializer's two routines — the
"is this resource name mine" identity predicate and the
reference-string-to-key resolver. -/
structure Externals where
  parseTimeRFC3339 : String → Except String (Int × Int)
  base64Unescape : String → Option (List Nat)
  isLocalResourceName : List String → Bool
  decodeReference : ReaderState → String → ReaderState × FieldValue

/-- Modelled from the spec: the smallest seconds value of a valid Timestamp
(`timestamp_internal.h` is outside the shown files; the spec says the
normalization routine "rejects out-of-range values"). -/
def TsMinSeconds : Int := -62135596800

/-- Modelled from the spec: the largest seconds value of a valid Timestamp. -/
def TsMaxSeconds : Int := 253402300799

/-- Modelled from the spec: `TimestampInternal::FromUntrustedSecondsAndNanos`
validates the pair and rejects out-of-range values with an error status. -/
def FromUntrustedSecondsAndNanos (s n : Int) : Except String (Int × Int) :=
  if TsMinSeconds ≤ s ∧ s ≤ TsMaxSeconds ∧ 0 ≤ n ∧ n < 1000000000 then
    Except.ok (s, n)
  else Except.error "Timestamp is out of range"

/-- Modelled from the spec: `TimestampInternal::FromUntrustedTime` funnels an
absl time (already decomposed as unix seconds and nanos) through the same
validation as the seconds/nanos path. -/
def FromUntrustedTime (t : Int × Int) : Except String (Int × Int) :=
  FromUntrustedSecondsAndNanos t.1 t.2

/-- `DecodeTimestamp`: an RFC-3339 string goes through the external time
parser, anything else through the `seconds`/`nanos` fields; both results are
validated by the normalization routine, which on rejection sets the status
and leaves the zero timestamp.  The source evaluates the two `RequireInt`
arguments as seconds first, nanos second (C++ leaves the order unspecified;
the failure messages may differ, nothing else). -/
def DecodeTimestamp (ex : Externals) (r : ReaderState) (version : Json) :
    ReaderState × (Int × Int) :=
  match version with
  | Json.str s =>
    match ex.parseTimeRFC3339 s with
    | Except.error err =>
      (JsonReader.Fail r ("Parsing timestamp failed with error: " ++ err), (0, 0))
    | Except.ok t =>
      match FromUntrustedTime t with
      | Except.ok ts => (r, ts)
      | Except.error st => (JsonReader.set_status r st, (0, 0))
  | _ =>
    let p1 := JsonReader.RequireInt 64 r "seconds" version
    let p2 := JsonReader.RequireInt 32 p1.1 "nanos" version
    match FromUntrustedSecondsAndNanos p1.2 p2.2 with
    | Except.ok ts => (p2.1, ts)
    | Except.error st => (JsonReader.set_status p2.1 st, (0, 0))

/-- `DecodeSnapshotVersion` wraps the decoded timestamp. -/
def DecodeSnapshotVersion (ex : Externals) (r : ReaderState) (version : Json) :
    ReaderState × (Int × Int) :=
  DecodeTimestamp ex r version

/-- Splitting a character list at a separator character (the list of chunks
between separators, in order). -/
def splitCharsOn (sep : Char) : List Char → List Char → List String
  | [], acc => [String.mk acc.reverse]
  | c :: cs, acc =>
    if c = sep then String.mk acc.reverse :: splitCharsOn sep cs []
    else splitCharsOn sep cs (c :: acc)

/-- Modelled from the spec: `ResourcePath::FromString` (outside the shown
files) decodes a slash-separated resource string into its ordered nonempty
segments. -/
def ResourcePath.fromString (s : String) : List String :=
  (splitCharsOn '/' s.data []).filter (fun seg => seg ≠ "")

/-- Modelled from the spec: `ResourcePath::CanonicalString` joins the
segments with slashes. -/
def ResourcePath.canonicalString (p : List String) : String :=
  String.intercalate "/" p

/-- Modelled from the spec: `FieldPath::FromServerFormat` (outside the shown
files) splits a dotted field path into its ordered segments, failing on an
empty path or empty segment.  (The backtick-quoting syntax of real server
format strings is not modelled; no claim depends on it.) -/
def FieldPath.fromServerFormat (s : String) : Except String (List String) :=
  let segs := splitCharsOn '.' s.data []
  if segs.contains "" then Except.error ("Invalid field path: " ++ s)
  else Except.ok segs

/-- `DecodeFieldReference`: requires an object with a `fieldPath` string in
server format; placeholder empty path plus status on failure. -/
def DecodeFieldReference (r : ReaderState) (field : Json) :
    ReaderState × List String :=
  if ¬ field.isObject then
    (JsonReader.Fail r "'field' should be an json object, but it is not", [])
  else
    let p := JsonReader.RequireString r "fieldPath" field
    match FieldPath.fromServerFormat p.2 with
    | Except.error st => (JsonReader.set_status p.1 st, [])
    | Except.ok path => (p.1, path)

/-- `core::Filter::Operator`. -/
inductive FilterOp where
  | LessThan
  | LessThanOrEqual
  | Equal
  | NotEqual
  | GreaterThan
  | GreaterThanOrEqual
  | ArrayContains
  | In
  | ArrayContainsAny
  | NotIn
deriving DecidableEq

/-- A `FieldFilter` (the only constructible filter shape in this subsystem):
field path, operator, comparison value. -/
structure Filter where
  path : List String
  op : FilterOp
  value : FieldValue

/-- `FieldFilter::Create`. -/
def FieldFilter.Create (path : List String) (op : FilterOp) (value : FieldValue) :
    Filter :=
  ⟨path, op, value⟩

/-- The canonical placeholder filter returned when decoding fails partway
(`FieldFilter::Create({}, {}, {})`; the spec describes it as the Equal
placeholder — `core/field_filter.h` is outside the shown files). -/
def InvalidFilter : Filter :=
  FieldFilter.Create [] FilterOp.Equal FieldValue.null

/-- `DecodeFieldFilterOperator`: the ten operator strings, anything else
records a failure and returns `Equal` ("we have to return something"). -/
def DecodeFieldFilterOperator (r : ReaderState) (op : String) :
    ReaderState × FilterOp :=
  if op = "LESS_THAN" then (r, FilterOp.LessThan)
  else if op = "LESS_THAN_OR_EQUAL" then (r, FilterOp.LessThanOrEqual)
  else if op = "EQUAL" then (r, FilterOp.Equal)
  else if op = "NOT_EQUAL" then (r, FilterOp.NotEqual)
  else if op = "GREATER_THAN" then (r, FilterOp.GreaterThan)
  else if op = "GREATER_THAN_OR_EQUAL" then (r, FilterOp.GreaterThanOrEqual)
  else if op = "ARRAY_CONTAINS" then (r, FilterOp.ArrayContains)
  else if op = "IN" then (r, FilterOp.In)
  else if op = "ARRAY_CONTAINS_ANY" then (r, FilterOp.ArrayContainsAny)
  else if op = "NOT_IN" then (r, FilterOp.NotIn)
  else (JsonReader.Fail r ("Operator in filter is not valid: " ++ op), FilterOp.Equal)

/-- `DecodeUnaryFilter`: `IS_NAN`/`IS_NULL`/`IS_NOT_NAN`/`IS_NOT_NULL` against
a NaN or Null literal; early placeholder return when the field or operator
already failed. -/
def DecodeUnaryFilter (r : ReaderState) (filter : Json) : ReaderState × Filter :=
  let pf := JsonReader.Require r "field" filter
  let pp := DecodeFieldReference pf.1 pf.2
  let po := JsonReader.RequireString pp.1 "op" filter
  if ¬ JsonReader.ok po.1 then (po.1, InvalidFilter)
  else if po.2 = "IS_NAN" then
    (po.1, FieldFilter.Create pp.2 FilterOp.Equal FieldValue.nan)
  else if po.2 = "IS_NULL" then
    (po.1, FieldFilter.Create pp.2 FilterOp.Equal FieldValue.null)
  else if po.2 = "IS_NOT_NAN" then
    (po.1, FieldFilter.Create pp.2 FilterOp.NotEqual FieldValue.nan)
  else if po.2 = "IS_NOT_NULL" then
    (po.1, FieldFilter.Create pp.2 FilterOp.NotEqual FieldValue.null)
  else
    (JsonReader.Fail po.1 ("Unexpected unary filter operator: " ++ po.2),
     InvalidFilter)

/-- `DecodeGeoPointValue`: `latitude`/`longitude` each default to 0 when
absent ("lenient-by-design"). -/
def DecodeGeoPointValue (r : ReaderState) (gj : Json) : ReaderState × FieldValue :=
  let p1 :=
    match gj.lookup "latitude" with
    | some _ => JsonReader.RequireDouble r "latitude" gj
    | none => (r, 0)
  let p2 :=
    match gj.lookup "longitude" with
    | some _ => JsonReader.RequireDouble p1.1 "longitude" gj
    | none => (p1.1, 0)
  (p2.1, FieldValue.geoPoint p1.2 p2.2)

/-- `DecodeBytesValue`: malformed base64 records a failure and returns the
empty placeholder value. -/
def DecodeBytesValue (ex : Externals) (r : ReaderState) (bytes_string : String) :
    ReaderState × FieldValue :=
  match ex.base64Unescape bytes_string with
  | none =>
    (JsonReader.Fail r "Failed to decode bytesValue string into binary form",
     FieldValue.null)
  | some bs => (r, FieldValue.bytes bs)

/-- `DecodeReferenceValue`: skipped (placeholder) when the reader already
failed, otherwise delegated to the wire serializer's reference resolver. -/
def DecodeReferenceValue (ex : Externals) (r : ReaderState) (ref_string : String) :
    ReaderState × FieldValue :=
  if ¬ JsonReader.ok r then (r, FieldValue.null)
  else ex.decodeReference r ref_string

mutual

/-- `BundleSerializer::DecodeValue`: dispatch on the first present
discriminator key, in the source's fixed order; a non-object or an object
with no recognized key fails with the Null placeholder.  The `contains`/`at`
pairs of the source appear as single lookups. -/
def DecodeValue (ex : Externals) (r : ReaderState) (v : Json) :
    ReaderState × FieldValue :=
  match v with
  | Json.obj entries =>
    match lookupEntries entries "nullValue" with
    | some _ => (r, FieldValue.null)
    | none =>
    match lookupEntries entries "booleanValue" with
    | some (Json.bool b) => (r, FieldValue.boolean b)
    | some _ =>
      (JsonReader.Fail r "'booleanValue' is not encoded as a valid boolean",
       FieldValue.null)
    | none =>
    match lookupEntries entries "integerValue" with
    | some _ =>
      let p := JsonReader.RequireInt 64 r "integerValue" (Json.obj entries)
      (p.1, FieldValue.integer p.2)
    | none =>
    match lookupEntries entries "doubleValue" with
    | some _ =>
      let p := JsonReader.RequireDouble r "doubleValue" (Json.obj entries)
      (p.1, FieldValue.double p.2)
    | none =>
    match lookupEntries entries "timestampValue" with
    | some tv =>
      let p := DecodeTimestamp ex r tv
      (p.1, FieldValue.timestamp p.2.1 p.2.2)
    | none =>
    match lookupEntries entries "stringValue" with
    | some _ =>
      let p := JsonReader.RequireString r "stringValue" (Json.obj entries)
      (p.1, FieldValue.string p.2)
    | none =>
    match lookupEntries entries "bytesValue" with
    | some _ =>
      let p := JsonReader.RequireString r "bytesValue" (Json.obj entries)
      DecodeBytesValue ex p.1 p.2
    | none =>
    match lookupEntries entries "referenceValue" with
    | some _ =>
      let p := JsonReader.RequireString r "referenceValue" (Json.obj entries)
      DecodeReferenceValue ex p.1 p.2
    | none =>
    match lookupEntries entries "geoPointValue" with
    | some gv => DecodeGeoPointValue r gv
    | none =>
    match harr : lookupEntries entries "arrayValue" with
    | some av => DecodeArrayValue ex r av
    | none =>
    match hmap : lookupEntries entries "mapValue" with
    | some mv => DecodeMapValue ex r mv
    | none =>
      (JsonReader.Fail r "Failed to decode value, no type is recognized",
       FieldValue.null)
  | _ => (JsonReader.Fail r "'value' is not encoded as JSON object", FieldValue.null)
termination_by sizeOf v
decreasing_by
· have h := sizeOf_lookupEntries harr
  simp
  omega
· have h := sizeOf_lookupEntries hmap
  simp
  omega

/-- `BundleSerializer::DecodeArrayValue`: element-wise decode of the required
`values` array (the `RequireArray` call is inlined as a lookup so the
recursion is visibly on subterms); Null placeholder when the reader failed. -/
def DecodeArrayValue (ex : Externals) (r : ReaderState) (aj : Json) :
    ReaderState × FieldValue :=
  match hv : aj.lookup "values" with
  | some (Json.arr xs) =>
    let p := DecodeValueList ex r xs
    if ¬ JsonReader.ok p.1 then (p.1, FieldValue.null)
    else (p.1, FieldValue.array p.2)
  | _ =>
    (JsonReader.Fail r "'values' is missing or is not a string", FieldValue.null)
termination_by sizeOf aj
decreasing_by
· have h := Json.sizeOf_lookup hv
  simp at h ⊢
  omega

/-- The `for` loop bodies over json arrays of values (`DecodeArrayValue`,
`DecodeBound`): decode each element in order, threading the reader. -/
def DecodeValueList (ex : Externals) (r : ReaderState) (vs : List Json) :
    ReaderState × List FieldValue :=
  match vs with
  | [] => (r, [])
  | v :: rest =>
    let p := DecodeValue ex r v
    let q := DecodeValueList ex p.1 rest
    (q.1, p.2 :: q.2)
termination_by sizeOf vs
decreasing_by
all_goals simp
all_goals omega

/-- `BundleSerializer::DecodeMapValue`: requires a `fields` object (a
non-object argument or a missing key is "mapValue is not a valid map") and
inserts each decoded field into the sorted map. -/
def DecodeMapValue (ex : Externals) (r : ReaderState) (mj : Json) :
    ReaderState × FieldValue :=
  match hf : mj.lookup "fields" with
  | some (Json.obj fkvs) =>
    let p := DecodeMapFields ex r fkvs []
    (p.1, FieldValue.map p.2)
  | some _ =>
    (JsonReader.Fail r "mapValue's 'field' is not a valid map", FieldValue.null)
  | none => (JsonReader.Fail r "mapValue is not a valid map", FieldValue.null)
termination_by sizeOf mj
decreasing_by
· have h := Json.sizeOf_lookup hf
  simp at h ⊢
  omega

/-- The iteration of `DecodeMapValue` over the `fields` entries, inserting
into the accumulated sorted map. -/
def DecodeMapFields (ex : Externals) (r : ReaderState)
    (kvs : List (String × Json)) (acc : List (String × FieldValue)) :
    ReaderState × List (String × FieldValue) :=
  match kvs with
  | [] => (r, acc)
  | (k, jv) :: rest =>
    let p := DecodeValue ex r jv
    DecodeMapFields ex p.1 rest (SortedMap.insert acc k p.2)
termination_by sizeOf kvs
decreasing_by
all_goals simp
all_goals omega

end

/-- `core::Direction`. -/
inductive Direction where
  | Ascending
  | Descending
deriving DecidableEq

/-- `core::OrderBy`: field path and direction. -/
structure OrderBy where
  field : List String
  direction : Direction

/-- `core::Bound`: position values and the inclusive flag. -/
structure Bound where
  position : List FieldValue
  before : Bool

/-- `core::LimitType`. -/
inductive LimitType where
  | First
  | Last
  | None
deriving DecidableEq

/-- Modelled from the spec: `Target::kNoLimit`, "a sentinel constant means
unbounded" (`core/target.h` is outside the shown files). -/
def Target.kNoLimit : Int := -1

/-- `core::Target` as constructed by `DecodeBundledQuery`: base path,
optional collection-group id, filters, order-bys, limit, optional bounds. -/
structure Target where
  path : List String
  collectionGroup : Option String
  filters : List Filter
  orderBys : List OrderBy
  limit : Int
  startAt : Option Bound
  endAt : Option Bound

/-- `bundle::BundledQuery`: a target plus the advisory limit type. -/
structure BundledQuery where
  target : Target
  limitType : LimitType

/-- Modelled from the spec: the zero `Target()`. -/
def defaultTarget : Target :=
  ⟨[], none, [], [], Target.kNoLimit, none, none⟩

/-- Modelled from the spec: the zero `BundledQuery()` returned on early
failure. -/
def defaultBundledQuery : BundledQuery :=
  ⟨defaultTarget, LimitType.None⟩

/-- `VerifyStructuredQuery`: pre-validates the reduced grammar subset —
object shape, no `select`, a `from`, no `offset`. -/
def VerifyStructuredQuery (r : ReaderState) (query : Json) : ReaderState :=
  if ¬ query.isObject then
    JsonReader.Fail r "'structuredQuery' is not an object as expected."
  else if (query.lookup "select").isSome then
    JsonReader.Fail r "Queries with 'select' statements are not supported in bundles"
  else if (query.lookup "from").isNone then
    JsonReader.Fail r "Query does not have a 'from' collection"
  else if (query.lookup "offset").isSome then
    JsonReader.Fail r "Queries with 'offset' are not supported in bundles"
  else r

/-- `DecodeCollectionSource`: exactly one collection selector;
`allDescendants` routes the collection id into the group slot, otherwise it
is appended to the parent path.  The source reads `from_json` through
`get_ref<const std::vector<json>&>()`, which throws on a non-array `from`
(only presence was verified); that C++-exception case is modelled as
returning the inputs unchanged and is not relied on by any theorem. -/
def DecodeCollectionSource (r : ReaderState) (from_json : Json)
    (parent : List String) (group : String) :
    ReaderState × List String × String :=
  match from_json with
  | Json.arr froms =>
    match froms with
    | [sel] =>
      let pc := JsonReader.RequireString r "collectionId" sel
      if JsonReader.OptionalBool "allDescendants" sel then (pc.1, parent, pc.2)
      else (pc.1, parent ++ [pc.2], group)
    | _ =>
      (JsonReader.Fail r
        "Only queries with a single 'from' clause are supported by the SDK",
       parent, group)
  | _ => (r, parent, group)

/-- The loop body of `DecodeOrderBy`: each entry's field reference, then the
direction string defaulting to `"ASCENDING"`; an invalid direction fails and
discards the whole sequence. -/
def DecodeOrderByLoop (r : ReaderState) (entries : List Json)
    (acc : List OrderBy) : ReaderState × List OrderBy :=
  match entries with
  | [] => (r, acc)
  | ob :: rest =>
    let pf := JsonReader.Require r "field" ob
    let pp := DecodeFieldReference pf.1 pf.2
    let pd :=
      match ob.lookup "direction" with
      | some _ => JsonReader.RequireString pp.1 "direction" ob
      | none => (pp.1, "ASCENDING")
    if pd.2 ≠ "DESCENDING" ∧ pd.2 ≠ "ASCENDING" then
      (JsonReader.Fail pd.1 ("'direction' value is invalid: " ++ pd.2), [])
    else
      let dir :=
        if pd.2 = "ASCENDING" then Direction.Ascending else Direction.Descending
      DecodeOrderByLoop pd.1 rest (acc ++ [OrderBy.mk pp.2 dir])

/-- `DecodeOrderBy`: iterates the `orderBy` array obtained through
`RequireArray` (so a missing or non-array `orderBy` records a failure and
yields the empty sequence). -/
def DecodeOrderBy (r : ReaderState) (query : Json) : ReaderState × List OrderBy :=
  let pa := JsonReader.RequireArray r "orderBy" query
  DecodeOrderByLoop pa.1 pa.2 []

/-- `DecodeLimit`: absent limit is the no-limit sentinel; a present limit
must be an integer JSON number (numeric strings fail) and is read through
`get<int32_t>` (a two's-complement narrowing). -/
def DecodeLimit (r : ReaderState) (query : Json) : ReaderState × Int :=
  match query.lookup "limit" with
  | none => (r, Target.kNoLimit)
  | some (Json.num i) => (r, toSigned 32 i)
  | some _ =>
    (JsonReader.Fail r "'limit' is not encoded as a valid integer",
     Target.kNoLimit)

/-- `DecodeLimitType`: defaults to `"FIRST"`, accepts only `FIRST`/`LAST`. -/
def DecodeLimitType (r : ReaderState) (query : Json) : ReaderState × LimitType :=
  let p :=
    match query.lookup "limitType" with
    | some _ => JsonReader.RequireString r "limitType" query
    | none => (r, "FIRST")
  if p.2 = "FIRST" then (p.1, LimitType.First)
  else if p.2 = "LAST" then (p.1, LimitType.Last)
  else
    (JsonReader.Fail p.1 "'limitType' is not encoded as a recognizable value",
     LimitType.None)

/-- `BundleSerializer::DecodeName`: requires a string, resolves it to a
resource path, validates the path against the local database identity
(failing with a message that embeds the offending canonical string), and
strips the 5-segment identity prefix. -/
def DecodeName (ex : Externals) (r : ReaderState) (document_name : Json) :
    ReaderState × List String :=
  match document_name with
  | Json.str s =>
    let path := ResourcePath.fromString s
    if ¬ ex.isLocalResourceName path then
      (JsonReader.Fail r ("Resource name is not valid for current instance: " ++
        ResourcePath.canonicalString path), [])
    else (r, path.drop 5)
  | _ => (JsonReader.Fail r "Document name is not a string.", [])

/-- `BundleSerializer::DecodeFieldFilter`: field reference, operator string,
operator, value — placeholder filter if anything failed. -/
def DecodeFieldFilter (ex : Externals) (r : ReaderState) (filter : Json) :
    ReaderState × Filter :=
  let pf := JsonReader.Require r "field" filter
  let pp := DecodeFieldReference pf.1 pf.2
  let pos := JsonReader.RequireString pp.1 "op" filter
  let pop := DecodeFieldFilterOperator pos.1 pos.2
  let pv := JsonReader.Require pop.1 "value" filter
  let pval := DecodeValue ex pv.1 pv.2
  if ¬ JsonReader.ok pval.1 then (pval.1, InvalidFilter)
  else (pval.1, FieldFilter.Create pp.2 pop.2 pval.2)

/-- The loop of `DecodeCompositeFilter` over the `filters` children: each
child's `fieldFilter` is decoded and appended; a failure after any child
returns the empty list. -/
def DecodeCompositeFilterLoop (ex : Externals) (r : ReaderState)
    (filters : List Json) (acc : List Filter) : ReaderState × List Filter :=
  match filters with
  | [] => (r, acc)
  | f :: rest =>
    let pff := JsonReader.Require r "fieldFilter" f
    let pd := DecodeFieldFilter ex pff.1 pff.2
    if ¬ JsonReader.ok pd.1 then (pd.1, [])
    else DecodeCompositeFilterLoop ex pd.1 rest (acc ++ [pd.2])

/-- `BundleSerializer::DecodeCompositeFilter`: the operator must be literally
`"AND"`, then each child of `filters` must carry a `fieldFilter`. -/
def DecodeCompositeFilter (ex : Externals) (r : ReaderState) (filter : Json) :
    ReaderState × List Filter :=
  let pop := JsonReader.RequireString r "op" filter
  if pop.2 ≠ "AND" then
    (JsonReader.Fail pop.1 "The SDK only supports composite filters of type 'AND'",
     [])
  else
    let pa := JsonReader.RequireArray pop.1 "filters" filter
    DecodeCompositeFilterLoop ex pa.1 pa.2 []

/-- `BundleSerializer::DecodeWhere`: absent `where` is valid (empty list);
otherwise exactly one of `compositeFilter`/`fieldFilter`/`unaryFilter`. -/
def DecodeWhere (ex : Externals) (r : ReaderState) (query : Json) :
    ReaderState × List Filter :=
  match query.lookup "where" with
  | none => (r, [])
  | some w =>
    if ¬ w.isObject then
      (JsonReader.Fail r "Query's 'where' clause is not a json object.", [])
    else if (w.lookup "compositeFilter").isSome then
      DecodeCompositeFilter ex r (w.atKey "compositeFilter")
    else if (w.lookup "fieldFilter").isSome then
      let p := DecodeFieldFilter ex r (w.atKey "fieldFilter")
      (p.1, [p.2])
    else if (w.lookup "unaryFilter").isSome then
      let p := DecodeUnaryFilter r (w.atKey "unaryFilter")
      (p.1, [p.2])
    else (JsonReader.Fail r "'where' does not have valid filter", [])

/-- `BundleSerializer::DecodeBound`: an absent bound key yields the default
`Bound({}, false)`; a present one decodes `before` (optional) and the
required `values` array element-wise. -/
def DecodeBound (ex : Externals) (r : ReaderState) (query : Json)
    (bound_name : String) : ReaderState × Bound :=
  match query.lookup bound_name with
  | none => (r, Bound.mk [] false)
  | some bj =>
    let before := JsonReader.OptionalBool "before" bj
    let pa := JsonReader.RequireArray r "values" bj
    let pv := DecodeValueList ex pa.1 pa.2
    (pv.1, Bound.mk pv.2 before)

/-- `BundleSerializer::DecodeBundledQuery` (the part after `Require` of the
`structuredQuery`): verify, decode parent and collection source, filters,
order-bys, bounds (a bound with an empty position is communicated to the
Target as absent), limit, limit type. -/
def DecodeBundledQuery (ex : Externals) (r : ReaderState) (query : Json) :
    ReaderState × BundledQuery :=
  let psq := JsonReader.Require r "structuredQuery" query
  let r2 := VerifyStructuredQuery psq.1 psq.2
  if ¬ JsonReader.ok r2 then (r2, defaultBundledQuery)
  else
    let ppj := JsonReader.Require r2 "parent" query
    let pparent := DecodeName ex ppj.1 ppj.2
    let pcs := DecodeCollectionSource pparent.1 (psq.2.atKey "from") pparent.2 ""
    let collectionGroup := if pcs.2.2 = "" then none else some pcs.2.2
    let pw := DecodeWhere ex pcs.1 psq.2
    let po := DecodeOrderBy pw.1 psq.2
    let psa := DecodeBound ex po.1 psq.2 "startAt"
    let startAt := if psa.2.position.isEmpty then none else some psa.2
    let pea := DecodeBound ex psa.1 psq.2 "endAt"
    let endAt := if pea.2.position.isEmpty then none else some pea.2
    let pl := DecodeLimit pea.1 psq.2
    let plt := DecodeLimitType pl.1 query
    (plt.1,
     BundledQuery.mk
       (Target.mk pcs.2.1 collectionGroup pw.2 po.2 pl.2 startAt endAt) plt.2)

/-- `bundle::BundledDocumentMetadata`. -/
structure BundledDocumentMetadata where
  key : List String
  readTime : Int × Int
  docExists : Bool
  queries : List String

/-- Modelled from the spec: the zero `BundledDocumentMetadata{}` returned on
early failure. -/
def defaultDocumentMetadata : BundledDocumentMetadata :=
  ⟨[], (0, 0), false, []⟩

/-- The `queries` loop of `DecodeDocumentMetadata`: every element must be a
string; a non-string aborts with `none` (the source returns the zero record
there). -/
def CollectQueryNames (r : ReaderState) (qs : List Json) (acc : List String) :
    ReaderState × Option (List String) :=
  match qs with
  | [] => (r, some acc)
  | Json.str s :: rest => CollectQueryNames r rest (acc ++ [s])
  | _ :: _ =>
    (JsonReader.Fail r "Query name should be encoded as string", none)

/-- `BundleSerializer::DecodeDocumentMetadata` starting from the parsed JSON
tree (the string-to-JSON step is the external nlohmann parser; its failure
branch only records a parse failure and returns the zero record). -/
def DecodeDocumentMetadata (ex : Externals) (r : ReaderState)
    (document_metadata : Json) : ReaderState × BundledDocumentMetadata :=
  let pn := JsonReader.Require r "name" document_metadata
  let pp := DecodeName ex pn.1 pn.2
  if ¬ JsonReader.ok pp.1 then (pp.1, defaultDocumentMetadata)
  else
    let prt := JsonReader.Require pp.1 "readTime" document_metadata
    let prtv := DecodeSnapshotVersion ex prt.1 prt.2
    let docExists := JsonReader.OptionalBool "exists" document_metadata
    let pq := JsonReader.RequireArray prtv.1 "queries" document_metadata
    let pcol := CollectQueryNames pq.1 pq.2 []
    match pcol.2 with
    | none => (pcol.1, defaultDocumentMetadata)
    | some queries =>
      (pcol.1, BundledDocumentMetadata.mk pp.2 prtv.2 docExists queries)

/-- `bundle::BundleDocument` contents as assembled by `DecodeDocument`:
document key, update time, and the document's field map. -/
structure BundleDocument where
  key : List String
  updateTime : Int × Int
  fields : List (String × FieldValue)

/-- Modelled from the spec: the zero `BundleDocument{}` returned on early
failure. -/
def defaultBundleDocument : BundleDocument :=
  ⟨[], (0, 0), []⟩

/-- `FieldValue::object_value()` of the decoded map value (the source
HARD_ASSERTs the Object type; after a failed decode the value is the Null
placeholder and the model yields the empty map). -/
def FieldValue.objectValue : FieldValue → List (String × FieldValue)
  | FieldValue.map m => m
  | _ => []

/-- `BundleSerializer::DecodeDocument` starting from the parsed JSON tree:
name through the path resolver (fatal on failure), update time, then the
top-level object itself is the argument of `DecodeMapValue`. -/
def DecodeDocument (ex : Externals) (r : ReaderState) (document : Json) :
    ReaderState × BundleDocument :=
  let pn := JsonReader.Require r "name" document
  let pp := DecodeName ex pn.1 pn.2
  if ¬ JsonReader.ok pp.1 then (pp.1, defaultBundleDocument)
  else
    let put := JsonReader.Require pp.1 "updateTime" document
    let putv := DecodeSnapshotVersion ex put.1 put.2
    let pmv := DecodeMapValue ex putv.1 document
    (pmv.1, BundleDocument.mk pp.2 putv.2 pmv.2.objectValue)

/-- One operation on the error context during a decode session: a
`Fail(message)` call or a `set_status(error)` call. -/
inductive ReaderOp where
  | fail (msg : String)
  | setStatus (msg : String)

/-- The message an operation carries. -/
def ReaderOp.msg : ReaderOp → String
  | ReaderOp.fail m => m
  | ReaderOp.setStatus m => m

/-- Application of one operation to the error context. -/
def applyReaderOp (r : ReaderState) : ReaderOp → ReaderState
  | ReaderOp.fail m => JsonReader.Fail r m
  | ReaderOp.setStatus m => JsonReader.set_status r m

/-- A session's operations applied in order to an initial context state. -/
def runReaderOps (r : ReaderState) (ops : List ReaderOp) : ReaderState :=
  ops.foldl applyReaderOp r

/-- A trivial instantiation of the external collaborators, used to settle
claims on concrete inputs that never reach them. -/
def trivialExt : Externals :=
  ⟨fun _ => Except.error "unparsed",
   fun _ => some [],
   fun _ => true,
   fun r _ => (r, FieldValue.null)⟩

/-- An instantiation of the external collaborators whose identity predicate
accepts exactly the 5-segment prefix `projects/p/databases/d/documents`. -/
def localExt : Externals :=
  ⟨fun _ => Except.error "unparsed",
   fun _ => some [],
   fun p => p.take 5 = ["projects", "p", "databases", "d", "documents"],
   fun r _ => (r, FieldValue.null)⟩

/-- The bound of a Target selected by the bound key it was decoded from. -/
def targetBound (bk : String) (t : Target) : Option Bound :=
  if bk = "startAt" then t.startAt else t.endAt

end FsBundle

namespace FsBundle

theorem applyReaderOp_some (m : String) (op : ReaderOp) :
    applyReaderOp (some m) op = some m := by
  cases op <;> rfl

theorem runReaderOps_some (m : String) (ops : List ReaderOp) :
    runReaderOps (some m) ops = some m := by
  induction ops with
  | nil => rfl
  | cons op rest ih =>
    show runReaderOps (applyReaderOp (some m) op) rest = some m
    rw [applyReaderOp_some]
    exact ih

/-- C3: the error context is sticky.  A first recorded failure is retained
unchanged under every later `Fail`/`set_status` and never cleared: starting
from a failed state, any operation sequence leaves the state untouched;
starting from the ok state, the first operation's message is the session's
final status; and `ok` holds exactly when no failure has been recorded. -/
theorem c3_error_context_sticky :
    (∀ (m : String) (ops : List ReaderOp), runReaderOps (some m) ops = some m) ∧
    (∀ (op : ReaderOp) (ops : List ReaderOp),
      runReaderOps none (op :: ops) = some op.msg) ∧
    (∀ (r : ReaderState) (ops : List ReaderOp),
      JsonReader.ok (runReaderOps r ops) = true ↔ r = none ∧ ops = []) := by
  refine ⟨runReaderOps_some, ?_, ?_⟩
  · intro op ops
    show runReaderOps (applyReaderOp none op) ops = some op.msg
    have h1 : applyReaderOp none op = some op.msg := by cases op <;> rfl
    rw [h1, runReaderOps_some]
  · intro r ops
    cases ops with
    | nil =>
      cases r with
      | none => simp [runReaderOps, JsonReader.ok]
      | some m => simp [runReaderOps, JsonReader.ok]
    | cons op rest =>
      cases r with
      | none =>
        have h1 : applyReaderOp none op = some op.msg := by cases op <;> rfl
        show JsonReader.ok (runReaderOps (applyReaderOp none op) rest) = true ↔ _
        rw [h1, runReaderOps_some]
        simp [JsonReader.ok]
      | some m =>
        rw [runReaderOps_some]
        simp [JsonReader.ok]

theorem toSigned_eq_self {w : Nat} {i : Int} (hw : 1 ≤ w)
    (h1 : -(2 ^ (w - 1)) ≤ i) (h2 : i < 2 ^ (w - 1)) : toSigned w i = i := by
  unfold toSigned
  have hpow : (2 : Int) ^ w = 2 ^ (w - 1) * 2 := by
    rw [← pow_succ]
    congr 1
    omega
  have hmod : (i + 2 ^ (w - 1)) % 2 ^ w = i + 2 ^ (w - 1) :=
    Int.emod_eq_of_lt (by omega) (by omega)
  omega

/-- C7 (amended): an absent `limit` yields the no-limit sentinel with no
failure; a present integer JSON `limit` yields that integer narrowed by
`get<int32_t>` (unchanged exactly when it fits in 32-bit signed range), with
no failure; a present numeric-string `limit` records a failure and yields
the sentinel. -/
theorem c7_limit_decoding (r : ReaderState) (q : Json) (i : Int) :
    (q.lookup "limit" = none → DecodeLimit r q = (r, Target.kNoLimit)) ∧
    (q.lookup "limit" = some (Json.num i) → -(2 ^ 31) ≤ i → i < 2 ^ 31 →
      DecodeLimit r q = (r, i)) ∧
    (q.lookup "limit" = some (Json.num i) →
      DecodeLimit r q = (r, toSigned 32 i)) ∧
    (∀ s, q.lookup "limit" = some (Json.str s) →
      DecodeLimit r q =
        (JsonReader.Fail r "'limit' is not encoded as a valid integer",
         Target.kNoLimit)) := by
  refine ⟨?_, ?_, ?_, ?_⟩
  · intro h
    unfold DecodeLimit
    rw [h]
  · intro h h1 h2
    unfold DecodeLimit
    rw [h]
    have : toSigned 32 i = i := toSigned_eq_self (by norm_num) h1 h2
    simp [this]
  · intro h
    unfold DecodeLimit
    rw [h]
  · intro s h
    unfold DecodeLimit
    rw [h]

theorem c7_limit_decoding_witness :
    DecodeLimit none (Json.obj []) = (none, Target.kNoLimit) ∧
    DecodeLimit none (Json.obj [("limit", Json.num 7)]) = (none, 7) ∧
    DecodeLimit none (Json.obj [("limit", Json.str "7")]) =
      (JsonReader.Fail none "'limit' is not encoded as a valid integer",
       Target.kNoLimit) :=
  ⟨(c7_limit_decoding none (Json.obj []) 0).1 rfl,
   (c7_limit_decoding none (Json.obj [("limit", Json.num 7)]) 7).2.1 (by rfl)
     (by norm_num) (by norm_num),
   (c7_limit_decoding none (Json.obj [("limit", Json.str "7")]) 0).2.2.2 "7"
     (by rfl)⟩

/-- C7 counterexample: a `limit` of `2147483648` is an integer JSON number,
yet `DecodeLimit` returns `-2147483648` (the `get<int32_t>` narrowing), not
that integer, and records no failure. -/
theorem c7_limit_counterexample :
    DecodeLimit none (Json.obj [("limit", Json.num 2147483648)]) =
      (none, -2147483648) ∧ (-2147483648 : Int) ≠ 2147483648 := by
  constructor
  · unfold DecodeLimit
    have h : (Json.obj [("limit", Json.num 2147483648)]).lookup "limit" =
        some (Json.num 2147483648) := rfl
    rw [h]
    norm_num [toSigned]
  · norm_num

end FsBundle

namespace FsBundle

/-- C4: `DecodeName` on a string name resolves the resource path; when the
external identity predicate accepts it, the path is returned with exactly
its 5 leading segments stripped and no failure; when it rejects, a failure
is recorded whose message embeds the offending path's canonical string (as
its suffix) and the empty path is returned. -/
theorem c4_decode_name (ex : Externals) (s : String) :
    (ex.isLocalResourceName (ResourcePath.fromString s) = true →
      DecodeName ex none (Json.str s) =
        (none, (ResourcePath.fromString s).drop 5)) ∧
    (ex.isLocalResourceName (ResourcePath.fromString s) = false →
      DecodeName ex none (Json.str s) =
        (some ("Resource name is not valid for current instance: " ++
            ResourcePath.canonicalString (ResourcePath.fromString s)), [])) := by
  constructor
  · intro h
    unfold DecodeName
    simp [h]
  · intro h
    unfold DecodeName
    simp [h, JsonReader.Fail]

theorem c4_decode_name_witness :
    localExt.isLocalResourceName
      (ResourcePath.fromString "projects/p/databases/d/documents/coll/doc") =
        true ∧
    DecodeName localExt none
        (Json.str "projects/p/databases/d/documents/coll/doc") =
      (none,
       (ResourcePath.fromString "projects/p/databases/d/documents/coll/doc").drop
         5) ∧
    localExt.isLocalResourceName
      (ResourcePath.fromString "projects/q/databases/d/documents/coll/doc") =
        false ∧
    DecodeName localExt none
        (Json.str "projects/q/databases/d/documents/coll/doc") =
      (some ("Resource name is not valid for current instance: " ++
          ResourcePath.canonicalString
            (ResourcePath.fromString "projects/q/databases/d/documents/coll/doc")),
       []) :=
  ⟨by decide,
   (c4_decode_name localExt "projects/p/databases/d/documents/coll/doc").1
     (by decide),
   by decide,
   (c4_decode_name localExt "projects/q/databases/d/documents/coll/doc").2
     (by decide)⟩

/-- C10: `DecodeValue` dispatches on the first present discriminator key in
the source's fixed order, never checks mutual exclusivity and records no
failure for extra discriminators: an object containing `nullValue` decodes
to Null whatever else it carries (e.g. alongside `stringValue`); with
`nullValue` absent a boolean `booleanValue` wins over all later keys; with
both absent an integer `integerValue` wins over all later keys. -/
theorem c10_value_dispatch_order (ex : Externals) (r : ReaderState)
    (kvs : List (String × Json)) (nv : Json) (b : Bool) (i : Int) :
    (lookupEntries kvs "nullValue" = some nv →
      DecodeValue ex r (Json.obj kvs) = (r, FieldValue.null)) ∧
    (lookupEntries kvs "nullValue" = none →
      lookupEntries kvs "booleanValue" = some (Json.bool b) →
      DecodeValue ex r (Json.obj kvs) = (r, FieldValue.boolean b)) ∧
    (lookupEntries kvs "nullValue" = none →
      lookupEntries kvs "booleanValue" = none →
      lookupEntries kvs "integerValue" = some (Json.num i) →
      DecodeValue ex r (Json.obj kvs) =
        (r, FieldValue.integer (toSigned 64 i))) := by
  refine ⟨?_, ?_, ?_⟩
  · intro h
    simp only [DecodeValue]
    rw [h]
  · intro h0 h1
    simp only [DecodeValue]
    rw [h0, h1]
  · intro h0 h1 h2
    simp only [DecodeValue]
    rw [h0, h1, h2]
    simp [JsonReader.RequireInt, Json.lookup, h2]

theorem c10_value_dispatch_order_witness :
    DecodeValue trivialExt none
        (Json.obj [("stringValue", Json.str "x"), ("nullValue", Json.null)]) =
      (none, FieldValue.null) ∧
    DecodeValue trivialExt none
        (Json.obj [("booleanValue", Json.bool true), ("integerValue", Json.num 5)]) =
      (none, FieldValue.boolean true) ∧
    DecodeValue trivialExt none
        (Json.obj [("integerValue", Json.num 5), ("stringValue", Json.str "x")]) =
      (none, FieldValue.integer 5) := by
  refine ⟨?_, ?_, ?_⟩
  · exact (c10_value_dispatch_order trivialExt none
      [("stringValue", Json.str "x"), ("nullValue", Json.null)]
      Json.null true 0).1 rfl
  · exact (c10_value_dispatch_order trivialExt none
      [("booleanValue", Json.bool true), ("integerValue", Json.num 5)]
      Json.null true 0).2.1 rfl rfl
  · have h := (c10_value_dispatch_order trivialExt none
      [("integerValue", Json.num 5), ("stringValue", Json.str "x")]
      Json.null true 5).2.2 rfl rfl rfl
    rw [h]
    norm_num [toSigned]

end FsBundle

namespace FsBundle

/-- C2 counterexample: a fully valid bundled query whose structuredQuery has
no `orderBy` key.  Decoding it records the `RequireArray` failure for the
missing key (the claim says no failure is recorded on its account). -/
theorem c2_missing_orderby_counterexample :
    DecodeBundledQuery localExt none
        (Json.obj
          [("parent", Json.str "projects/p/databases/d/documents"),
           ("structuredQuery",
            Json.obj
              [("from", Json.arr [Json.obj [("collectionId", Json.str "c")]])])]) =
      (some "'orderBy' is missing or is not a string",
       BundledQuery.mk (Target.mk ["c"] none [] [] Target.kNoLimit none none)
         LimitType.First) := by
  rfl

/-- C2 (amended): a structuredQuery without `orderBy` decodes through
`RequireArray`, which records a missing-key failure and yields the empty
order-by sequence; when `orderBy` is present, an entry whose `direction` key
is absent decodes with direction Ascending. -/
theorem c2_orderby_decoding (r : ReaderState) (q : Json) (entry fobj : Json)
    (p : List String) :
    (q.lookup "orderBy" = none →
      DecodeOrderBy r q =
        (JsonReader.Fail r "'orderBy' is missing or is not a string", [])) ∧
    (q.lookup "orderBy" = some (Json.arr [entry]) →
      entry.lookup "direction" = none →
      entry.lookup "field" = some fobj →
      DecodeFieldReference r fobj = (r, p) →
      DecodeOrderBy r q = (r, [OrderBy.mk p Direction.Ascending])) := by
  constructor
  · intro h
    unfold DecodeOrderBy JsonReader.RequireArray
    rw [h]
    rfl
  · intro horder hdir hfield hfp
    unfold DecodeOrderBy JsonReader.RequireArray
    rw [horder]
    show DecodeOrderByLoop r [entry] [] = _
    unfold DecodeOrderByLoop JsonReader.Require
    rw [hdir, hfield]
    simp only [hfp]
    norm_num
    rfl

theorem c2_orderby_decoding_witness :
    DecodeOrderBy none (Json.obj []) =
      (JsonReader.Fail none "'orderBy' is missing or is not a string", []) ∧
    DecodeOrderBy none
        (Json.obj
          [("orderBy",
            Json.arr
              [Json.obj [("field", Json.obj [("fieldPath", Json.str "a")])]])]) =
      (none, [OrderBy.mk ["a"] Direction.Ascending]) :=
  ⟨(c2_orderby_decoding none (Json.obj []) Json.null Json.null []).1 rfl,
   (c2_orderby_decoding none
       (Json.obj
         [("orderBy",
           Json.arr
             [Json.obj [("field", Json.obj [("fieldPath", Json.str "a")])]])])
       (Json.obj [("field", Json.obj [("fieldPath", Json.str "a")])])
       (Json.obj [("fieldPath", Json.str "a")]) ["a"]).2 rfl rfl rfl rfl⟩

end FsBundle

namespace FsBundle

theorem DecodeCompositeFilterLoop_ok (ex : Externals) (children : List Json)
    (hc : ∀ c ∈ children, ∃ fj, c.lookup "fieldFilter" = some fj ∧
      (DecodeFieldFilter ex none fj).1 = none) :
    ∀ acc, DecodeCompositeFilterLoop ex none children acc =
      (none, acc ++ children.map
        (fun c => (DecodeFieldFilter ex none (c.atKey "fieldFilter")).2)) := by
  induction children with
  | nil => intro acc; simp [DecodeCompositeFilterLoop]
  | cons f rest ih =>
    intro acc
    obtain ⟨fj, hfj, hok⟩ := hc f (List.mem_cons_self f rest)
    unfold DecodeCompositeFilterLoop JsonReader.Require
    rw [hfj]
    have hatk : f.atKey "fieldFilter" = fj := by
      unfold Json.atKey
      rw [hfj]
      rfl
    simp only [hatk, hok, JsonReader.ok]
    norm_num
    rw [ih (fun c hcmem => hc c (List.mem_cons_of_mem f hcmem))]
    simp [hatk]

/-- C5 (amended): with an `op` string other than `"AND"` a failure is
recorded and the empty list returned; with `op = "AND"` and every child of
`filters` carrying a `fieldFilter` that decodes without failure, the result
is the decoded field filters in source order, one per child; a child whose
`fieldFilter` fails to decode (e.g. a missing key inside it) makes the loop
return the empty list instead. -/
theorem c5_composite_filter (ex : Externals) (filter : Json)
    (children : List Json) :
    ((∀ s, filter.lookup "op" = some (Json.str s) → s ≠ "AND" →
      DecodeCompositeFilter ex none filter =
        (some "The SDK only supports composite filters of type 'AND'", []))) ∧
    (filter.lookup "op" = some (Json.str "AND") →
      filter.lookup "filters" = some (Json.arr children) →
      (∀ c ∈ children, ∃ fj, c.lookup "fieldFilter" = some fj ∧
        (DecodeFieldFilter ex none fj).1 = none) →
      DecodeCompositeFilter ex none filter =
        (none, children.map
          (fun c => (DecodeFieldFilter ex none (c.atKey "fieldFilter")).2)) ∧
      (children.map
        (fun c => (DecodeFieldFilter ex none (c.atKey "fieldFilter")).2)).length =
        children.length) := by
  constructor
  · intro s hop hne
    unfold DecodeCompositeFilter JsonReader.RequireString
    rw [hop]
    simp [hne, JsonReader.Fail]
  · intro hop hfilters hc
    constructor
    · unfold DecodeCompositeFilter JsonReader.RequireString JsonReader.RequireArray
      rw [hop, hfilters]
      simp only [reduceIte]
      norm_num
      rw [DecodeCompositeFilterLoop_ok ex children hc []]
      rfl
    · simp

/-- C5 counterexample: `op = "AND"` with one child that does contain a
`fieldFilter`, but whose field filter is the empty object; the decode fails
(`Missing child 'field'`) and returns the empty list: length 0, not the
number of children (1). -/
theorem c5_composite_filter_counterexample :
    DecodeCompositeFilter trivialExt none
        (Json.obj [("op", Json.str "AND"),
          ("filters", Json.arr [Json.obj [("fieldFilter", Json.obj [])]])]) =
      (some "Missing child 'field'", []) ∧
    ([] : List Filter).length ≠
      [Json.obj [("fieldFilter", Json.obj [])]].length := by
  constructor
  · simp [DecodeCompositeFilter, JsonReader.RequireString, JsonReader.RequireArray,
      Json.lookup, lookupEntries, DecodeCompositeFilterLoop, JsonReader.Require,
      DecodeFieldFilter, DecodeFieldReference, Json.isObject,
      FieldPath.fromServerFormat, splitCharsOn, DecodeFieldFilterOperator,
      DecodeValue, JsonReader.Fail, JsonReader.set_status, JsonReader.ok]
  · simp

theorem c5_composite_filter_witness :
    DecodeCompositeFilter trivialExt none
        (Json.obj [("op", Json.str "OR"), ("filters", Json.arr [])]) =
      (some "The SDK only supports composite filters of type 'AND'", []) ∧
    DecodeCompositeFilter trivialExt none
        (Json.obj [("op", Json.str "AND"),
          ("filters", Json.arr
            [Json.obj [("fieldFilter",
               Json.obj [("field", Json.obj [("fieldPath", Json.str "a")]),
                         ("op", Json.str "EQUAL"),
                         ("value", Json.obj [("nullValue", Json.null)])])],
             Json.obj [("fieldFilter",
               Json.obj [("field", Json.obj [("fieldPath", Json.str "b")]),
                         ("op", Json.str "EQUAL"),
                         ("value", Json.obj [("nullValue", Json.null)])])]])]) =
      (none,
       [Filter.mk ["a"] FilterOp.Equal FieldValue.null,
        Filter.mk ["b"] FilterOp.Equal FieldValue.null]) := by
  constructor
  · exact (c5_composite_filter trivialExt
      (Json.obj [("op", Json.str "OR"), ("filters", Json.arr [])]) []).1 "OR"
      rfl (by decide)
  · have hffa : DecodeFieldFilter trivialExt none
        (Json.obj [("field", Json.obj [("fieldPath", Json.str "a")]),
                   ("op", Json.str "EQUAL"),
                   ("value", Json.obj [("nullValue", Json.null)])]) =
        (none, Filter.mk ["a"] FilterOp.Equal FieldValue.null) := by
      simp [DecodeFieldFilter, JsonReader.Require, JsonReader.RequireString,
        Json.lookup, lookupEntries, DecodeFieldReference, Json.isObject,
        FieldPath.fromServerFormat, splitCharsOn, DecodeFieldFilterOperator,
        DecodeValue, JsonReader.ok, FieldFilter.Create]
    have hffb : DecodeFieldFilter trivialExt none
        (Json.obj [("field", Json.obj [("fieldPath", Json.str "b")]),
                   ("op", Json.str "EQUAL"),
                   ("value", Json.obj [("nullValue", Json.null)])]) =
        (none, Filter.mk ["b"] FilterOp.Equal FieldValue.null) := by
      simp [DecodeFieldFilter, JsonReader.Require, JsonReader.RequireString,
        Json.lookup, lookupEntries, DecodeFieldReference, Json.isObject,
        FieldPath.fromServerFormat, splitCharsOn, DecodeFieldFilterOperator,
        DecodeValue, JsonReader.ok, FieldFilter.Create]
    have h := ((c5_composite_filter trivialExt
      (Json.obj [("op", Json.str "AND"),
        ("filters", Json.arr
          [Json.obj [("fieldFilter",
             Json.obj [("field", Json.obj [("fieldPath", Json.str "a")]),
                       ("op", Json.str "EQUAL"),
                       ("value", Json.obj [("nullValue", Json.null)])])],
           Json.obj [("fieldFilter",
             Json.obj [("field", Json.obj [("fieldPath", Json.str "b")]),
                       ("op", Json.str "EQUAL"),
                       ("value", Json.obj [("nullValue", Json.null)])])]])])
      [Json.obj [("fieldFilter",
         Json.obj [("field", Json.obj [("fieldPath", Json.str "a")]),
                   ("op", Json.str "EQUAL"),
                   ("value", Json.obj [("nullValue", Json.null)])])],
       Json.obj [("fieldFilter",
         Json.obj [("field", Json.obj [("fieldPath", Json.str "b")]),
                   ("op", Json.str "EQUAL"),
                   ("value", Json.obj [("nullValue", Json.null)])])]]).2 rfl rfl
      ?_).1
    · rw [h]
      simp [Json.atKey, Json.lookup, lookupEntries, hffa, hffb]
    · intro c hcmem
      simp only [List.mem_cons, List.not_mem_nil, or_false] at hcmem
      rcases hcmem with h1 | h1
      · subst h1
        exact ⟨_, rfl, by rw [hffa]⟩
      · subst h1
        exact ⟨_, rfl, by rw [hffb]⟩

end FsBundle

namespace FsBundle

theorem lookup_obj (es : List (String × Json)) (k : String) :
    (Json.obj es).lookup k = lookupEntries es k := rfl

theorem OptionalBool_nonbool {kvs : List (String × Json)} {k : String} {v : Json}
    (h : lookupEntries kvs k = some v) (hnb : ∀ b, v ≠ Json.bool b) :
    JsonReader.OptionalBool k (Json.obj kvs) = false := by
  unfold JsonReader.OptionalBool
  rw [lookup_obj, h]
  cases v with
  | bool b => exact absurd rfl (hnb b)
  | null => rfl
  | num i => rfl
  | numF q => rfl
  | str s => rfl
  | arr xs => rfl
  | obj es => rfl

/-- C9: `OptionalBool` is lenient — a present but non-boolean value yields
`false`, and `OptionalBool` is `static` so it cannot record a failure;
consequently a document-metadata record whose `exists` is bound to a
non-boolean value decodes exactly as the same record with `exists` absent
(flag `false`, identical reader state), and a `from` selector with a
non-boolean `allDescendants` appends the collection id to the parent path as
if the flag were `false`. -/
theorem c9_optional_bool_lenient (ex : Externals) (r : ReaderState)
    (nm rt v qs : Json) (kvs : List (String × Json))
    (k : String) (sel : Json) (parent : List String) :
    (lookupEntries kvs k = some v → (∀ b, v ≠ Json.bool b) →
      JsonReader.OptionalBool k (Json.obj kvs) = false) ∧
    ((∀ b, v ≠ Json.bool b) →
      DecodeDocumentMetadata ex r
          (Json.obj [("name", nm), ("readTime", rt), ("exists", v),
                     ("queries", qs)]) =
        DecodeDocumentMetadata ex r
          (Json.obj [("name", nm), ("readTime", rt), ("queries", qs)]) ∧
      JsonReader.OptionalBool "exists"
        (Json.obj [("name", nm), ("readTime", rt), ("exists", v),
                   ("queries", qs)]) = false) ∧
    (sel.lookup "allDescendants" = some v → (∀ b, v ≠ Json.bool b) →
      DecodeCollectionSource r (Json.arr [sel]) parent "" =
        ((JsonReader.RequireString r "collectionId" sel).1,
         parent ++ [(JsonReader.RequireString r "collectionId" sel).2], "")) := by
  refine ⟨fun h hnb => OptionalBool_nonbool h hnb, ?_, ?_⟩
  · intro hnb
    have hob : JsonReader.OptionalBool "exists"
        (Json.obj [("name", nm), ("readTime", rt), ("exists", v),
                   ("queries", qs)]) = false :=
      OptionalBool_nonbool (by simp [lookupEntries]) hnb
    refine ⟨?_, hob⟩
    unfold DecodeDocumentMetadata
    rw [hob]
    have hob' : JsonReader.OptionalBool "exists"
        (Json.obj [("name", nm), ("readTime", rt), ("queries", qs)]) = false := by
      unfold JsonReader.OptionalBool
      simp [lookup_obj, lookupEntries]
    rw [hob']
    have h1 : JsonReader.Require r "name"
        (Json.obj [("name", nm), ("readTime", rt), ("exists", v),
                   ("queries", qs)]) =
        JsonReader.Require r "name"
          (Json.obj [("name", nm), ("readTime", rt), ("queries", qs)]) := by
      unfold JsonReader.Require
      simp [lookup_obj, lookupEntries]
    rw [h1]
    have h2 : ∀ rr, JsonReader.Require rr "readTime"
        (Json.obj [("name", nm), ("readTime", rt), ("exists", v),
                   ("queries", qs)]) =
        JsonReader.Require rr "readTime"
          (Json.obj [("name", nm), ("readTime", rt), ("queries", qs)]) := by
      intro rr
      unfold JsonReader.Require
      simp [lookup_obj, lookupEntries]
    simp only [h2]
    have h3 : ∀ rr, JsonReader.RequireArray rr "queries"
        (Json.obj [("name", nm), ("readTime", rt), ("exists", v),
                   ("queries", qs)]) =
        JsonReader.RequireArray rr "queries"
          (Json.obj [("name", nm), ("readTime", rt), ("queries", qs)]) := by
      intro rr
      unfold JsonReader.RequireArray
      simp [lookup_obj, lookupEntries]
    simp only [h3]
  · intro h hnb
    have hfalse : JsonReader.OptionalBool "allDescendants" sel = false := by
      cases sel with
      | obj kvs2 => exact OptionalBool_nonbool h hnb
      | null => rfl
      | bool b => rfl
      | num i => rfl
      | numF q => rfl
      | str ss => rfl
      | arr xs => rfl
    unfold DecodeCollectionSource
    show (if JsonReader.OptionalBool "allDescendants" sel = true then
        ((JsonReader.RequireString r "collectionId" sel).1, parent,
         (JsonReader.RequireString r "collectionId" sel).2)
      else
        ((JsonReader.RequireString r "collectionId" sel).1,
         parent ++ [(JsonReader.RequireString r "collectionId" sel).2], "")) = _
    rw [hfalse]
    simp

theorem c9_optional_bool_lenient_witness :
    JsonReader.OptionalBool "exists"
      (Json.obj [("exists", Json.str "yes")]) = false ∧
    DecodeDocumentMetadata localExt none
        (Json.obj
          [("name", Json.str "projects/p/databases/d/documents/c/d1"),
           ("readTime",
            Json.obj [("seconds", Json.num 0), ("nanos", Json.num 0)]),
           ("exists", Json.str "yes"), ("queries", Json.arr [])]) =
      DecodeDocumentMetadata localExt none
        (Json.obj
          [("name", Json.str "projects/p/databases/d/documents/c/d1"),
           ("readTime",
            Json.obj [("seconds", Json.num 0), ("nanos", Json.num 0)]),
           ("queries", Json.arr [])]) ∧
    DecodeCollectionSource none
        (Json.arr
          [Json.obj [("collectionId", Json.str "c"),
                     ("allDescendants", Json.num 1)]]) [] "" =
      (none, ["c"], "") := by
  refine ⟨?_, ?_, ?_⟩
  · exact (c9_optional_bool_lenient localExt none Json.null Json.null
      (Json.str "yes") Json.null [("exists", Json.str "yes")] "exists"
      Json.null []).1 rfl (fun b h => by cases h)
  · exact ((c9_optional_bool_lenient localExt none
      (Json.str "projects/p/databases/d/documents/c/d1")
      (Json.obj [("seconds", Json.num 0), ("nanos", Json.num 0)])
      (Json.str "yes") (Json.arr []) [] "exists" Json.null []).2.1
      (fun b h => by cases h)).1
  · have h := (c9_optional_bool_lenient localExt none Json.null Json.null
      (Json.num 1) Json.null [] "exists"
      (Json.obj [("collectionId", Json.str "c"), ("allDescendants", Json.num 1)])
      []).2.2 rfl (fun b hh => by cases hh)
    rw [h]
    rfl

end FsBundle

namespace FsBundle

/-- C1 (amended): `DecodeDocument` hands the top-level document object
directly to `DecodeMapValue` with no `mapValue` wrapper, but `DecodeMapValue`
unconditionally requires a `fields` key even at this level: a document
object carrying `fields: F` decodes to exactly the value of
`DecodeValue {"mapValue": {"fields": F}}`, while a document object without a
`fields` key records the "mapValue is not a valid map" failure. -/
theorem c1_document_fields (ex : Externals) (r : ReaderState) (doc F : Json) :
    (doc.lookup "fields" = some F →
      DecodeMapValue ex r doc =
        DecodeValue ex r (Json.obj [("mapValue", Json.obj [("fields", F)])])) ∧
    (doc.lookup "fields" = none →
      DecodeMapValue ex r doc =
        (JsonReader.Fail r "mapValue is not a valid map", FieldValue.null)) := by
  constructor
  · intro h
    have hr : DecodeValue ex r
        (Json.obj [("mapValue", Json.obj [("fields", F)])]) =
        DecodeMapValue ex r (Json.obj [("fields", F)]) := by
      simp only [DecodeValue]
      rfl
    rw [hr]
    simp only [DecodeMapValue]
    rw [h]
    have h2 : (Json.obj [("fields", F)]).lookup "fields" = some F := rfl
    rw [h2]
  · intro h
    simp only [DecodeMapValue]
    rw [h]

theorem c1_document_fields_witness :
    DecodeMapValue trivialExt none
        (Json.obj [("name", Json.str "n"),
          ("fields", Json.obj [("a", Json.obj [("stringValue", Json.str "x")])])]) =
      DecodeValue trivialExt none
        (Json.obj [("mapValue",
          Json.obj [("fields",
            Json.obj [("a", Json.obj [("stringValue", Json.str "x")])])])]) ∧
    DecodeMapValue trivialExt none (Json.obj [("name", Json.str "n")]) =
      (some "mapValue is not a valid map", FieldValue.null) := by
  constructor
  · exact (c1_document_fields trivialExt none
      (Json.obj [("name", Json.str "n"),
        ("fields", Json.obj [("a", Json.obj [("stringValue", Json.str "x")])])])
      (Json.obj [("a", Json.obj [("stringValue", Json.str "x")])])).1 rfl
  · have h := (c1_document_fields trivialExt none
      (Json.obj [("name", Json.str "n")]) Json.null).2 rfl
    rw [h]
    rfl

/-- C1 counterexample: a document record whose field values sit at the top
level with no `fields` key (valid name and update time).  The claim says
`DecodeDocument` decodes the top-level object as the field map without
requiring a `fields` key; instead the decode records the
"mapValue is not a valid map" failure and produces an empty field map. -/
theorem c1_document_fields_counterexample :
    DecodeDocument localExt none
        (Json.obj
          [("name", Json.str "projects/p/databases/d/documents/c/d1"),
           ("updateTime",
            Json.obj [("seconds", Json.num 0), ("nanos", Json.num 0)]),
           ("a", Json.obj [("stringValue", Json.str "x")])]) =
      (some "mapValue is not a valid map",
       BundleDocument.mk ["c", "d1"] (0, 0) []) := by
  simp [DecodeDocument, JsonReader.Require, Json.lookup, lookupEntries,
    DecodeName, ResourcePath.fromString, splitCharsOn, localExt,
    JsonReader.ok, DecodeSnapshotVersion, DecodeTimestamp,
    JsonReader.RequireInt, toSigned, FromUntrustedSecondsAndNanos,
    TsMinSeconds, TsMaxSeconds, DecodeMapValue, JsonReader.Fail,
    FieldValue.objectValue]

end FsBundle

namespace FsBundle

/-- Decimal digit printer, fuel-structured (callers pass fuel greater than
the value, so the fuel never runs out). -/
def natToDigitsCore : Nat → Nat → List Char → List Char
  | 0, _, acc => acc
  | fuel + 1, n, acc =>
    if n < 10 then Char.ofNat (48 + n % 10) :: acc
    else natToDigitsCore fuel (n / 10) (Char.ofNat (48 + n % 10) :: acc)

/-- The canonical decimal string of a natural number. -/
def natToDecimal (n : Nat) : String := String.mk (natToDigitsCore (n + 1) n [])

/-- The canonical decimal string of an integer (a leading minus sign when
negative). -/
def intToDecimal (i : Int) : String :=
  if i < 0 then "-" ++ natToDecimal i.natAbs else natToDecimal i.toNat

/-- `10 ^ (number of decimal digits of n)`, the weight a digit run shifts an
accumulator by. -/
def decWeight (n : Nat) : Nat :=
  if n < 10 then 10 else 10 * decWeight (n / 10)
termination_by n
decreasing_by
omega

theorem digitVal_ofNat {d : Nat} (hd : d < 10) :
    digitVal (Char.ofNat (48 + d)) = some d := by
  interval_cases d <;> decide

theorem parseNatCore_append (xs ys : List Char) (a : Nat) :
    parseNatCore (xs ++ ys) a =
      (parseNatCore xs a).bind (fun a' => parseNatCore ys a') := by
  induction xs generalizing a with
  | nil => rfl
  | cons c cs ih =>
    simp only [List.cons_append, parseNatCore]
    cases digitVal c with
    | some d => exact ih (a * 10 + d)
    | none => rfl

theorem natToDigitsCore_acc (fuel : Nat) :
    ∀ (n : Nat) (acc : List Char),
      natToDigitsCore fuel n acc = natToDigitsCore fuel n [] ++ acc := by
  induction fuel with
  | zero => intro n acc; rfl
  | succ fuel ih =>
    intro n acc
    show (if n < 10 then Char.ofNat (48 + n % 10) :: acc
        else natToDigitsCore fuel (n / 10) (Char.ofNat (48 + n % 10) :: acc)) =
      (if n < 10 then Char.ofNat (48 + n % 10) :: ([] : List Char)
        else natToDigitsCore fuel (n / 10) [Char.ofNat (48 + n % 10)]) ++ acc
    by_cases h : n < 10
    · rw [if_pos h, if_pos h]
      rfl
    · rw [if_neg h, if_neg h]
      rw [ih (n / 10) (Char.ofNat (48 + n % 10) :: acc),
        ih (n / 10) [Char.ofNat (48 + n % 10)]]
      rw [List.append_assoc]
      rfl

theorem parseNatCore_natToDigitsCore (fuel : Nat) :
    ∀ (n a : Nat), n < fuel →
      parseNatCore (natToDigitsCore fuel n []) a =
        some (a * decWeight n + n) := by
  induction fuel with
  | zero => intro n a h; omega
  | succ fuel ih =>
    intro n a h
    by_cases h10 : n < 10
    · have hm : n % 10 = n := Nat.mod_eq_of_lt h10
      have hw : decWeight n = 10 := by
        rw [decWeight]
        simp [h10]
      have hcore : natToDigitsCore (fuel + 1) n [] =
          [Char.ofNat (48 + n % 10)] := by
        show (if n < 10 then Char.ofNat (48 + n % 10) :: ([] : List Char)
          else natToDigitsCore fuel (n / 10) [Char.ofNat (48 + n % 10)]) = _
        rw [if_pos h10]
      rw [hcore]
      simp only [parseNatCore, digitVal_ofNat (Nat.mod_lt n (by norm_num))]
      rw [hw, hm]
    · have hfuel : n / 10 < fuel := by omega
      have hcore : natToDigitsCore (fuel + 1) n [] =
          natToDigitsCore fuel (n / 10) [] ++ [Char.ofNat (48 + n % 10)] := by
        show (if n < 10 then Char.ofNat (48 + n % 10) :: ([] : List Char)
          else natToDigitsCore fuel (n / 10) [Char.ofNat (48 + n % 10)]) = _
        rw [if_neg h10, natToDigitsCore_acc]
      rw [hcore, parseNatCore_append, ih (n / 10) a hfuel]
      have hd : n % 10 < 10 := Nat.mod_lt _ (by norm_num)
      show parseNatCore [Char.ofNat (48 + n % 10)]
        (a * decWeight (n / 10) + n / 10) = _
      simp only [parseNatCore, digitVal_ofNat hd]
      have hw : decWeight n = 10 * decWeight (n / 10) := by
        rw [decWeight]
        simp [h10]
      rw [hw]
      have hcomm : a * (10 * decWeight (n / 10)) =
          10 * (a * decWeight (n / 10)) := by ring
      rw [hcomm]
      congr 1
      generalize a * decWeight (n / 10) = P
      omega

theorem natToDigitsCore_head (fuel : Nat) :
    ∀ n : Nat, n < fuel →
      ∃ c cs, natToDigitsCore fuel n [] = c :: cs ∧ (digitVal c).isSome := by
  induction fuel with
  | zero => intro n h; omega
  | succ fuel ih =>
    intro n h
    by_cases h10 : n < 10
    · refine ⟨Char.ofNat (48 + n % 10), [], by simp [natToDigitsCore, h10], ?_⟩
      rw [digitVal_ofNat (Nat.mod_lt _ (by norm_num))]
      rfl
    · obtain ⟨c, cs, hc, hd⟩ := ih (n / 10) (by omega)
      refine ⟨c, cs ++ [Char.ofNat (48 + n % 10)], ?_, hd⟩
      simp only [natToDigitsCore, h10, if_false]
      rw [natToDigitsCore_acc, hc]
      rfl

theorem SimpleAtoi_natToDecimal (n : Nat) :
    SimpleAtoi (natToDecimal n) = some (n : Int) := by
  obtain ⟨c, cs, hc, hd⟩ := natToDigitsCore_head (n + 1) n (by omega)
  have hdata : (natToDecimal n).data = c :: cs := by
    simp [natToDecimal, hc]
  have hparse : parseNatDigits (c :: cs) = some n := by
    show parseNatCore (c :: cs) 0 = some n
    rw [← hc, parseNatCore_natToDigitsCore (n + 1) n 0 (by omega)]
    simp
  unfold SimpleAtoi
  rw [hdata]
  split
  · rename_i cs' heq
    injection heq with h1 h2
    subst h1
    rw [show digitVal '-' = none from rfl] at hd
    simp at hd
  · rename_i cs' heq
    injection heq with h1 h2
    subst h1
    rw [show digitVal '+' = none from rfl] at hd
    simp at hd
  · simp [hparse]

theorem SimpleAtoi_intToDecimal (i : Int) :
    SimpleAtoi (intToDecimal i) = some i := by
  by_cases hneg : i < 0
  · obtain ⟨c, cs, hc, hd⟩ :=
      natToDigitsCore_head (i.natAbs + 1) i.natAbs (by omega)
    have hdata2 : (natToDecimal i.natAbs).data = c :: cs := by
      simp [natToDecimal, hc]
    have hparse : parseNatDigits (c :: cs) = some i.natAbs := by
      show parseNatCore (c :: cs) 0 = some i.natAbs
      rw [← hc, parseNatCore_natToDigitsCore (i.natAbs + 1) i.natAbs 0 (by omega)]
      simp
    have hid : intToDecimal i = "-" ++ natToDecimal i.natAbs := by
      simp [intToDecimal, hneg]
    unfold SimpleAtoi
    rw [hid]
    have hdata : ("-" ++ natToDecimal i.natAbs).data =
        '-' :: (natToDecimal i.natAbs).data := rfl
    rw [hdata, hdata2]
    split
    · rename_i cs' heq
      injection heq with h1 h2
      subst h2
      rw [hparse]
      have habs : (i.natAbs : Int) = -i := by omega
      simp [habs]
    · rename_i cs' heq
      injection heq with h1 h2
      exact absurd h1 (by decide)
    · rename_i hne1 hne2
      exact absurd rfl (hne1 (c :: cs))
  · have hid : intToDecimal i = natToDecimal i.toNat := by
      simp [intToDecimal, hneg]
    rw [hid, SimpleAtoi_natToDecimal]
    congr 1
    omega

end FsBundle

namespace FsBundle

/-- C8 (amended): for every int64-representable integer, an `integerValue`
carried as a base-10 numeric string (any string `SimpleAtoi` reads as that
value, in particular the canonical decimal form) decodes equal to the same
value carried as a native JSON integer, with no failure; outside the int64
range the two forms diverge (see the counterexample). -/
theorem c8_integer_value_forms (ex : Externals) (r : ReaderState) (i : Int)
    (s : String) (hlo : -(2 ^ 63) ≤ i) (hhi : i < 2 ^ 63) :
    (SimpleAtoi s = some i →
      DecodeValue ex r (Json.obj [("integerValue", Json.str s)]) =
        (r, FieldValue.integer i)) ∧
    DecodeValue ex r (Json.obj [("integerValue", Json.num i)]) =
      (r, FieldValue.integer i) ∧
    DecodeValue ex r (Json.obj [("integerValue", Json.str (intToDecimal i))]) =
      (r, FieldValue.integer i) := by
  have hsigned : toSigned 64 i = i :=
    toSigned_eq_self (by norm_num) (by norm_num; norm_num at hlo; omega)
      (by norm_num; norm_num at hhi; omega)
  have hstr : ∀ t : String, SimpleAtoi t = some i →
      DecodeValue ex r (Json.obj [("integerValue", Json.str t)]) =
        (r, FieldValue.integer i) := by
    intro t ht
    simp only [DecodeValue, lookupEntries, String.reduceEq, reduceIte]
    simp only [JsonReader.RequireInt, Json.lookup, lookupEntries,
      String.reduceEq, reduceIte]
    simp only [ht]
    have hcond : (-9223372036854775808 : Int) ≤ i ∧
        i < 9223372036854775808 := by
      norm_num at hlo hhi
      omega
    rw [if_pos (by norm_num; omega : -(2 : Int) ^ (64 - 1) ≤ i ∧
      i < 2 ^ (64 - 1))]
  refine ⟨hstr s, ?_, hstr (intToDecimal i) (SimpleAtoi_intToDecimal i)⟩
  · simp only [DecodeValue, lookupEntries, String.reduceEq, reduceIte]
    simp only [JsonReader.RequireInt, Json.lookup, lookupEntries,
      String.reduceEq, reduceIte]
    rw [hsigned]

theorem c8_integer_value_forms_witness :
    SimpleAtoi "42" = some 42 ∧
    DecodeValue trivialExt none
        (Json.obj [("integerValue", Json.str "42")]) =
      (none, FieldValue.integer 42) ∧
    DecodeValue trivialExt none
        (Json.obj [("integerValue", Json.num 42)]) =
      (none, FieldValue.integer 42) :=
  ⟨by decide,
   (c8_integer_value_forms trivialExt none 42 "42" (by norm_num)
     (by norm_num)).1 (by decide),
   (c8_integer_value_forms trivialExt none 42 "42" (by norm_num)
     (by norm_num)).2.1⟩

/-- C8 counterexample: at `2^63` the two carriers differ.  The native JSON
integer decodes through the `get<int64_t>` narrowing to `-2^63` with no
failure, while the same value as a base-10 numeric string makes
`SimpleAtoi<int64_t>` fail, recording a failure and yielding `Integer(0)`. -/
theorem c8_integer_value_counterexample :
    DecodeValue trivialExt none
        (Json.obj [("integerValue", Json.num (2 ^ 63))]) =
      (none, FieldValue.integer (-(2 ^ 63))) ∧
    DecodeValue trivialExt none
        (Json.obj [("integerValue", Json.str "9223372036854775808")]) =
      (some "Failed to parse into integer: 9223372036854775808",
       FieldValue.integer 0) ∧
    FieldValue.integer (-(2 ^ 63)) ≠ FieldValue.integer 0 := by
  refine ⟨?_, ?_, ?_⟩
  · simp only [DecodeValue, lookupEntries, String.reduceEq, reduceIte]
    simp only [JsonReader.RequireInt, Json.lookup, lookupEntries,
      String.reduceEq, reduceIte]
    norm_num [toSigned]
  · simp only [DecodeValue, lookupEntries, String.reduceEq, reduceIte]
    simp only [JsonReader.RequireInt, Json.lookup, lookupEntries,
      String.reduceEq, reduceIte]
    simp only [show SimpleAtoi "9223372036854775808" = some (2 ^ 63) from by
      decide]
    rw [if_neg (by norm_num : ¬(-(2 : Int) ^ (64 - 1) ≤ 2 ^ 63 ∧
      (2 : Int) ^ 63 < 2 ^ (64 - 1)))]
    rfl
  · intro h
    injection h with h1
    norm_num at h1

end FsBundle

namespace FsBundle

theorem VerifyStructuredQuery_congr (r : ReaderState)
    {sl sl' : List (String × Json)}
    (hsel : lookupEntries sl "select" = lookupEntries sl' "select")
    (hfrom : lookupEntries sl "from" = lookupEntries sl' "from")
    (hoff : lookupEntries sl "offset" = lookupEntries sl' "offset") :
    VerifyStructuredQuery r (Json.obj sl) =
      VerifyStructuredQuery r (Json.obj sl') := by
  unfold VerifyStructuredQuery
  simp only [Json.isObject, lookup_obj, hsel, hfrom, hoff]

theorem DecodeWhere_congr (ex : Externals) (r : ReaderState)
    {sl sl' : List (String × Json)}
    (h : lookupEntries sl "where" = lookupEntries sl' "where") :
    DecodeWhere ex r (Json.obj sl) = DecodeWhere ex r (Json.obj sl') := by
  unfold DecodeWhere
  simp only [lookup_obj, h]

theorem DecodeOrderBy_congr (r : ReaderState)
    {sl sl' : List (String × Json)}
    (h : lookupEntries sl "orderBy" = lookupEntries sl' "orderBy") :
    DecodeOrderBy r (Json.obj sl) = DecodeOrderBy r (Json.obj sl') := by
  unfold DecodeOrderBy JsonReader.RequireArray
  simp only [lookup_obj, h]

theorem DecodeBound_congr (ex : Externals) (r : ReaderState) (bn : String)
    {sl sl' : List (String × Json)}
    (h : lookupEntries sl bn = lookupEntries sl' bn) :
    DecodeBound ex r (Json.obj sl) bn = DecodeBound ex r (Json.obj sl') bn := by
  unfold DecodeBound
  simp only [lookup_obj, h]

theorem DecodeLimit_congr (r : ReaderState) {sl sl' : List (String × Json)}
    (h : lookupEntries sl "limit" = lookupEntries sl' "limit") :
    DecodeLimit r (Json.obj sl) = DecodeLimit r (Json.obj sl') := by
  unfold DecodeLimit
  simp only [lookup_obj, h]

theorem DecodeLimitType_congr (r : ReaderState)
    {qkvs qkvs' : List (String × Json)}
    (h : lookupEntries qkvs "limitType" = lookupEntries qkvs' "limitType") :
    DecodeLimitType r (Json.obj qkvs) = DecodeLimitType r (Json.obj qkvs') := by
  unfold DecodeLimitType JsonReader.RequireString
  simp only [lookup_obj, h]

theorem Require_DecodeName_congr (ex : Externals) (r : ReaderState)
    (name : String) {qkvs qkvs' : List (String × Json)}
    (h : lookupEntries qkvs name = lookupEntries qkvs' name) :
    DecodeName ex (JsonReader.Require r name (Json.obj qkvs)).1
        (JsonReader.Require r name (Json.obj qkvs)).2 =
      DecodeName ex (JsonReader.Require r name (Json.obj qkvs')).1
        (JsonReader.Require r name (Json.obj qkvs')).2 := by
  unfold JsonReader.Require
  simp only [lookup_obj, h]
  cases hl : lookupEntries qkvs' name with
  | some c => rfl
  | none => rfl

end FsBundle

namespace FsBundle

/-- C6: a structuredQuery whose `startAt` (respectively `endAt`) is present
with an empty `values` array decodes to exactly the same BundledQuery and
reader state as the identical query with the bound key entirely absent, and
in both runs the Target carries no bound on that side (`none`). -/
theorem c6_empty_bound_equals_absent (ex : Externals) (r : ReaderState)
    (bk : String) (qkvs qkvs' sl sl' : List (String × Json)) (bv : Json)
    (hbk : bk = "startAt" ∨ bk = "endAt")
    (houter : ∀ k, k ≠ "structuredQuery" →
      lookupEntries qkvs k = lookupEntries qkvs' k)
    (hsq : lookupEntries qkvs "structuredQuery" = some (Json.obj sl))
    (hsq' : lookupEntries qkvs' "structuredQuery" = some (Json.obj sl'))
    (hsl : ∀ k, k ≠ bk → lookupEntries sl k = lookupEntries sl' k)
    (hbv : lookupEntries sl bk = some bv)
    (habs : lookupEntries sl' bk = none)
    (hvals : bv.lookup "values" = some (Json.arr [])) :
    DecodeBundledQuery ex r (Json.obj qkvs) =
      DecodeBundledQuery ex r (Json.obj qkvs') ∧
    targetBound bk (DecodeBundledQuery ex r (Json.obj qkvs)).2.target = none ∧
    targetBound bk (DecodeBundledQuery ex r (Json.obj qkvs')).2.target =
      none := by
  have hr1 : JsonReader.Require r "structuredQuery" (Json.obj qkvs) =
      (r, Json.obj sl) := by
    unfold JsonReader.Require
    simp [lookup_obj, hsq]
  have hr1' : JsonReader.Require r "structuredQuery" (Json.obj qkvs') =
      (r, Json.obj sl') := by
    unfold JsonReader.Require
    simp [lookup_obj, hsq']
  have hpn : ∀ rr, DecodeName ex
      (JsonReader.Require rr "parent" (Json.obj qkvs)).1
      (JsonReader.Require rr "parent" (Json.obj qkvs)).2 =
    DecodeName ex (JsonReader.Require rr "parent" (Json.obj qkvs')).1
      (JsonReader.Require rr "parent" (Json.obj qkvs')).2 :=
    fun rr =>
      Require_DecodeName_congr ex rr "parent" (houter "parent" (by decide))
  have hltc : ∀ rr, DecodeLimitType rr (Json.obj qkvs) =
      DecodeLimitType rr (Json.obj qkvs') :=
    fun rr => DecodeLimitType_congr rr (houter "limitType" (by decide))
  rcases hbk with h6 | h6 <;> subst h6
  · have hv := VerifyStructuredQuery_congr r (hsl "select" (by decide))
      (hsl "from" (by decide)) (hsl "offset" (by decide))
    have hfromk : (Json.obj sl).atKey "from" = (Json.obj sl').atKey "from" := by
      unfold Json.atKey
      rw [lookup_obj, lookup_obj, hsl "from" (by decide)]
    have hw : ∀ rr, DecodeWhere ex rr (Json.obj sl) =
        DecodeWhere ex rr (Json.obj sl') :=
      fun rr => DecodeWhere_congr ex rr (hsl "where" (by decide))
    have ho : ∀ rr, DecodeOrderBy rr (Json.obj sl) =
        DecodeOrderBy rr (Json.obj sl') :=
      fun rr => DecodeOrderBy_congr rr (hsl "orderBy" (by decide))
    have hb1 : ∀ rr, DecodeBound ex rr (Json.obj sl) "startAt" =
        (rr, Bound.mk [] (JsonReader.OptionalBool "before" bv)) := by
      intro rr
      unfold DecodeBound JsonReader.RequireArray
      simp only [lookup_obj, hbv, hvals]
      simp only [DecodeValueList]
    have hb1' : ∀ rr, DecodeBound ex rr (Json.obj sl') "startAt" =
        (rr, Bound.mk [] false) := by
      intro rr
      unfold DecodeBound
      simp only [lookup_obj, habs]
    have hb2 : ∀ rr, DecodeBound ex rr (Json.obj sl) "endAt" =
        DecodeBound ex rr (Json.obj sl') "endAt" :=
      fun rr => DecodeBound_congr ex rr "endAt" (hsl "endAt" (by decide))
    have hl : ∀ rr, DecodeLimit rr (Json.obj sl) =
        DecodeLimit rr (Json.obj sl') :=
      fun rr => DecodeLimit_congr rr (hsl "limit" (by decide))
    refine ⟨?_, ?_, ?_⟩
    · unfold DecodeBundledQuery
      simp only [hr1, hr1', hv, hpn, hfromk, hw, ho, hb1, hb1', hb2, hl, hltc,
        List.isEmpty_nil, if_true]
    · unfold DecodeBundledQuery
      simp only [hr1, hv, hpn, hfromk, hw, ho, hb1, hb2, hl, hltc,
        List.isEmpty_nil, if_true]
      by_cases hok :
        JsonReader.ok (VerifyStructuredQuery r (Json.obj sl')) = true
      · simp [hok, targetBound]
      · simp [hok, targetBound, defaultBundledQuery, defaultTarget]
    · unfold DecodeBundledQuery
      simp only [hr1', hb1', List.isEmpty_nil, if_true]
      by_cases hok :
        JsonReader.ok (VerifyStructuredQuery r (Json.obj sl')) = true
      · simp [hok, targetBound]
      · simp [hok, targetBound, defaultBundledQuery, defaultTarget]
  · have hv := VerifyStructuredQuery_congr r (hsl "select" (by decide))
      (hsl "from" (by decide)) (hsl "offset" (by decide))
    have hfromk : (Json.obj sl).atKey "from" = (Json.obj sl').atKey "from" := by
      unfold Json.atKey
      rw [lookup_obj, lookup_obj, hsl "from" (by decide)]
    have hw : ∀ rr, DecodeWhere ex rr (Json.obj sl) =
        DecodeWhere ex rr (Json.obj sl') :=
      fun rr => DecodeWhere_congr ex rr (hsl "where" (by decide))
    have ho : ∀ rr, DecodeOrderBy rr (Json.obj sl) =
        DecodeOrderBy rr (Json.obj sl') :=
      fun rr => DecodeOrderBy_congr rr (hsl "orderBy" (by decide))
    have hb1 : ∀ rr, DecodeBound ex rr (Json.obj sl) "endAt" =
        (rr, Bound.mk [] (JsonReader.OptionalBool "before" bv)) := by
      intro rr
      unfold DecodeBound JsonReader.RequireArray
      simp only [lookup_obj, hbv, hvals]
      simp only [DecodeValueList]
    have hb1' : ∀ rr, DecodeBound ex rr (Json.obj sl') "endAt" =
        (rr, Bound.mk [] false) := by
      intro rr
      unfold DecodeBound
      simp only [lookup_obj, habs]
    have hb2 : ∀ rr, DecodeBound ex rr (Json.obj sl) "startAt" =
        DecodeBound ex rr (Json.obj sl') "startAt" :=
      fun rr => DecodeBound_congr ex rr "startAt" (hsl "startAt" (by decide))
    have hl : ∀ rr, DecodeLimit rr (Json.obj sl) =
        DecodeLimit rr (Json.obj sl') :=
      fun rr => DecodeLimit_congr rr (hsl "limit" (by decide))
    refine ⟨?_, ?_, ?_⟩
    · unfold DecodeBundledQuery
      simp only [hr1, hr1', hv, hpn, hfromk, hw, ho, hb1, hb1', hb2, hl, hltc,
        List.isEmpty_nil, if_true]
    · unfold DecodeBundledQuery
      simp only [hr1, hv, hpn, hfromk, hw, ho, hb1, hb2, hl, hltc,
        List.isEmpty_nil, if_true]
      by_cases hok :
        JsonReader.ok (VerifyStructuredQuery r (Json.obj sl')) = true
      · simp [hok, targetBound]
      · simp [hok, targetBound, defaultBundledQuery, defaultTarget]
    · unfold DecodeBundledQuery
      simp only [hr1', hb1', List.isEmpty_nil, if_true]
      by_cases hok :
        JsonReader.ok (VerifyStructuredQuery r (Json.obj sl')) = true
      · simp [hok, targetBound]
      · simp [hok, targetBound, defaultBundledQuery, defaultTarget]

theorem c6_empty_bound_equals_absent_witness :
    DecodeBundledQuery localExt none
        (Json.obj
          [("parent", Json.str "projects/p/databases/d/documents"),
           ("structuredQuery",
            Json.obj
              [("from", Json.arr [Json.obj [("collectionId", Json.str "c")]]),
               ("startAt", Json.obj [("values", Json.arr [])])]),
           ("limitType", Json.str "FIRST")]) =
      DecodeBundledQuery localExt none
        (Json.obj
          [("parent", Json.str "projects/p/databases/d/documents"),
           ("structuredQuery",
            Json.obj
              [("from",
                Json.arr [Json.obj [("collectionId", Json.str "c")]])]),
           ("limitType", Json.str "FIRST")]) ∧
    targetBound "startAt"
      (DecodeBundledQuery localExt none
        (Json.obj
          [("parent", Json.str "projects/p/databases/d/documents"),
           ("structuredQuery",
            Json.obj
              [("from", Json.arr [Json.obj [("collectionId", Json.str "c")]]),
               ("startAt", Json.obj [("values", Json.arr [])])]),
           ("limitType", Json.str "FIRST")])).2.target = none := by
  have h := c6_empty_bound_equals_absent localExt none "startAt"
    [("parent", Json.str "projects/p/databases/d/documents"),
     ("structuredQuery",
      Json.obj
        [("from", Json.arr [Json.obj [("collectionId", Json.str "c")]]),
         ("startAt", Json.obj [("values", Json.arr [])])]),
     ("limitType", Json.str "FIRST")]
    [("parent", Json.str "projects/p/databases/d/documents"),
     ("structuredQuery",
      Json.obj
        [("from", Json.arr [Json.obj [("collectionId", Json.str "c")]])]),
     ("limitType", Json.str "FIRST")]
    [("from", Json.arr [Json.obj [("collectionId", Json.str "c")]]),
     ("startAt", Json.obj [("values", Json.arr [])])]
    [("from", Json.arr [Json.obj [("collectionId", Json.str "c")]])]
    (Json.obj [("values", Json.arr [])])
    (Or.inl rfl)
    (by
      intro k hk
      simp [lookupEntries, Ne.symm hk])
    rfl rfl
    (by
      intro k hk
      simp [lookupEntries, Ne.symm hk])
    rfl rfl rfl
  exact ⟨h.1, h.2.1⟩

end FsBundle

